import Mathlib

/-!
Verification of the okp4-cognitarium storage engine against its design
specification. Rust strings are modelled as lists of characters (`Str`);
`byteLen` is Rust's `str::len` (UTF-8 byte count). Rust `u128` / `Uint128`
counters are modelled as `Nat`; cosmwasm `Uint128` subtraction, which the
source performs unchecked, is modelled as truncating `Nat` subtraction.
Fallible code returns `Except`.
-/

set_option synthInstance.maxSize 512

namespace Cognitarium

/-- Rust `&str` / `String`, modelled as a list of characters. -/
abbrev Str := List Char

/-- Rust `str::len`: the UTF-8 byte length of a string. -/
def byteLen (s : Str) : Nat := (s.map Char.utf8Size).sum

/-! ## `rdf.rs`: `explode_iri` -/

/-- Rust `str::rfind(char)`: the index of the rightmost occurrence of a
character, `none` when absent. Delimiters searched for are ASCII, so the
source's byte index coincides with the character index used here. -/
def rfindChar : Str → Char → Option Nat
  | [], _ => none
  | a :: s, c =>
    match rfindChar s c with
    | some i => some (i + 1)
    | none => if a = c then some 0 else none

/-- The delimiter list `['#', '/', ':']` of `explode_iri` (rdf.rs). -/
def explodeDelims : List Char := ['#', '/', ':']

/-- The loop body of `explode_iri`: fold one delimiter's rightmost index into
the running `marker_index`. -/
def markerStep (iri : Str) (acc : Option Nat) (delim : Char) : Option Nat :=
  match rfindChar iri delim with
  | some index =>
    match acc with
    | some i => some (max i index)
    | none => some index
  | none => acc

/-- `explode_iri` (rdf.rs lines 127-143): split an IRI at the rightmost
occurrence of `#`, `/` or `:`; the namespace keeps the delimiter. -/
def explode_iri (iri : Str) : Except String (Str × Str) :=
  match explodeDelims.foldl (markerStep iri) none with
  | some index => .ok (iri.take (index + 1), iri.drop (index + 1))
  | none => .error "Couldn't extract IRI namespace"

/-! ### Lemmas about `rfindChar` and the marker fold -/

theorem rfindChar_eq_none {s : Str} {c : Char} :
    rfindChar s c = none ↔ c ∉ s := by
  induction s with
  | nil => simp [rfindChar]
  | cons a s ih =>
    rw [rfindChar]
    cases h : rfindChar s c with
    | some i =>
      simp only [h, List.mem_cons]
      constructor
      · intro hfalse; cases hfalse
      · intro hnot
        exact absurd (ih.mpr fun hc => hnot (Or.inr hc)) (by simp [h])
    | none =>
      by_cases hac : a = c
      · subst hac
        simp [h]
      · simp only [h, if_neg hac, List.mem_cons]
        constructor
        · intro _ hor
          rcases hor with hca | hcs
          · exact hac hca.symm
          · exact ih.mp h hcs
        · intro _; trivial

theorem rfindChar_some_lt {s : Str} {c : Char} {i : Nat}
    (h : rfindChar s c = some i) : i < s.length := by
  induction s generalizing i with
  | nil => simp [rfindChar] at h
  | cons a s ih =>
    rw [rfindChar] at h
    cases hs : rfindChar s c with
    | some j =>
      rw [hs] at h
      cases h
      simpa using ih hs
    | none =>
      rw [hs] at h
      by_cases hac : a = c
      · simp [hac] at h
        simp only [List.length_cons]
        omega
      · simp [hac] at h

theorem rfindChar_some_get {s : Str} {c : Char} {i : Nat}
    (h : rfindChar s c = some i) (hi : i < s.length) :
    s.get ⟨i, hi⟩ = c := by
  induction s generalizing i with
  | nil => simp [rfindChar] at h
  | cons a s ih =>
    rw [rfindChar] at h
    cases hs : rfindChar s c with
    | some j =>
      rw [hs] at h
      cases h
      exact ih hs (by simpa using Nat.lt_of_succ_lt_succ hi)
    | none =>
      rw [hs] at h
      by_cases hac : a = c <;> simp [hac] at h
      subst h
      simpa using hac

theorem rfindChar_maximal {s : Str} {c : Char} {i : Nat}
    (h : rfindChar s c = some i) :
    ∀ j (hj : j < s.length), i < j → s.get ⟨j, hj⟩ ≠ c := by
  induction s generalizing i with
  | nil => simp [rfindChar] at h
  | cons a s ih =>
    rw [rfindChar] at h
    intro j hj hij
    cases hs : rfindChar s c with
    | some k =>
      rw [hs] at h
      cases h
      match j with
      | 0 => omega
      | j + 1 =>
        have := ih hs j (by simpa using Nat.lt_of_succ_lt_succ hj) (by omega)
        simpa using this
    | none =>
      rw [hs] at h
      by_cases hac : a = c <;> simp [hac] at h
      subst h
      match j with
      | 0 => omega
      | j + 1 =>
        have hjs : j < s.length := by simpa using Nat.lt_of_succ_lt_succ hj
        have hmem : c ∉ s := rfindChar_eq_none.mp hs
        intro hget
        have hgs : s.get ⟨j, hjs⟩ = c := by simpa using hget
        exact hmem (hgs ▸ List.get_mem s j hjs)

/-- If a character occurs at index `j`, `rfindChar` finds an index `≥ j`. -/
theorem rfindChar_ge_of_get {s : Str} {c : Char} {j : Nat} (hj : j < s.length)
    (hget : s.get ⟨j, hj⟩ = c) : ∃ i, rfindChar s c = some i ∧ j ≤ i := by
  have hmem : c ∈ s := by
    rw [← hget]; exact List.get_mem s j hj
  cases h : rfindChar s c with
  | none => exact absurd hmem (rfindChar_eq_none.mp h)
  | some i =>
    refine ⟨i, rfl, ?_⟩
    by_contra hlt
    exact rfindChar_maximal h j hj (by omega) hget

theorem markerFold_eq_none {iri : Str} {ds : List Char} {acc : Option Nat} :
    ds.foldl (markerStep iri) acc = none ↔
      acc = none ∧ ∀ d ∈ ds, rfindChar iri d = none := by
  induction ds generalizing acc with
  | nil => simp
  | cons d ds ih =>
    rw [List.foldl_cons, ih]
    unfold markerStep
    cases hd : rfindChar iri d with
    | some i =>
      cases acc <;> simp [hd]
    | none => simp [hd, and_assoc]

theorem markerFold_some_src {iri : Str} {ds : List Char} {acc : Option Nat}
    {i : Nat} (h : ds.foldl (markerStep iri) acc = some i) :
    acc = some i ∨ ∃ d ∈ ds, rfindChar iri d = some i := by
  induction ds generalizing acc with
  | nil => simp at h; simp [h]
  | cons d ds ih =>
    rw [List.foldl_cons] at h
    rcases ih h with hacc | ⟨d', hd', hf⟩
    · unfold markerStep at hacc
      cases hd : rfindChar iri d with
      | some k =>
        rw [hd] at hacc
        cases acc with
        | some j =>
          simp at hacc
          rcases max_choice j k with hm | hm <;> rw [hm] at hacc
          · exact Or.inl (by rw [hacc])
          · exact Or.inr ⟨d, by simp, by rw [hd, hacc]⟩
        | none =>
          simp at hacc
          exact Or.inr ⟨d, by simp, by rw [hd, hacc]⟩
      | none =>
        rw [hd] at hacc
        exact Or.inl hacc
    · exact Or.inr ⟨d', by simp [hd'], hf⟩

theorem markerFold_some_max {iri : Str} {ds : List Char} {acc : Option Nat}
    {i : Nat} (h : ds.foldl (markerStep iri) acc = some i) :
    (∀ j, acc = some j → j ≤ i) ∧
      ∀ d ∈ ds, ∀ j, rfindChar iri d = some j → j ≤ i := by
  induction ds generalizing acc with
  | nil =>
    simp at h
    constructor
    · intro j hj; rw [h] at hj; cases hj; omega
    · simp
  | cons d ds ih =>
    rw [List.foldl_cons] at h
    have ⟨hacc', hds⟩ := ih h
    constructor
    · intro j hj
      subst hj
      unfold markerStep at hacc'
      cases hd : rfindChar iri d with
      | some k =>
        have := hacc' (max j k) (by rw [hd])
        omega
      | none => exact hacc' j (by rw [hd])
    · intro d' hd' j hj
      rcases List.mem_cons.mp hd' with rfl | hmem
      · unfold markerStep at hacc'
        rw [hj] at hacc'
        cases acc with
        | some a =>
          have := hacc' (max a j) rfl
          omega
        | none => exact hacc' j rfl
      · exact hds d' hmem j hj

/-- C1: for every IRI string containing at least one of the delimiters `#`,
`/`, `:`, `explode_iri` returns `Ok (namespace, local)` where
`namespace ++ local` equals the input, the namespace is nonempty and ends in
one of the delimiters, and the local part contains no delimiter (hence the
split point is the rightmost delimiter occurrence overall and the namespace
includes the delimiter); for every IRI containing none of the three
delimiters, `explode_iri` fails with the no-namespace-boundary error. -/
theorem explode_iri_correct (iri : Str) :
    ((∃ c ∈ explodeDelims, c ∈ iri) →
      ∃ ns loc, explode_iri iri = .ok (ns, loc) ∧ ns ++ loc = iri ∧
        (∃ d ∈ explodeDelims, ns.getLast? = some d) ∧
        ∀ c ∈ loc, c ∉ explodeDelims) ∧
    ((∀ c ∈ explodeDelims, c ∉ iri) →
      explode_iri iri = .error "Couldn't extract IRI namespace") := by
  constructor
  · rintro ⟨c, hcd, hcm⟩
    cases hfold : explodeDelims.foldl (markerStep iri) none with
    | none =>
      rcases markerFold_eq_none.mp hfold with ⟨-, hall⟩
      exact absurd hcm (rfindChar_eq_none.mp (hall c hcd))
    | some i =>
      rcases markerFold_some_src hfold with h | ⟨d, hd, hfi⟩
      · cases h
      have hlt : i < iri.length := rfindChar_some_lt hfi
      have hget : iri.get ⟨i, hlt⟩ = d := rfindChar_some_get hfi hlt
      have hmax := (markerFold_some_max hfold).2
      refine ⟨iri.take (i + 1), iri.drop (i + 1), ?_,
        List.take_append_drop _ _, ⟨d, hd, ?_⟩, ?_⟩
      · rw [explode_iri, hfold]
      · rw [List.getLast?_eq_getElem?]
        have hlen : (iri.take (i + 1)).length = i + 1 := by
          simp [List.length_take]
          omega
        rw [hlen]
        simp only [Nat.add_sub_cancel]
        rw [List.getElem?_take, if_pos (Nat.lt_succ_self i),
          List.getElem?_eq_getElem hlt]
        rw [← hget]
        rfl
      · intro q hq hqd
        rcases List.mem_iff_get.mp hq with ⟨⟨k, hk⟩, hgk⟩
        have hk' : i + 1 + k < iri.length := by
          have := hk
          simp [List.length_drop] at this
          omega
        have hgk' : iri.get ⟨i + 1 + k, hk'⟩ = q := by
          rw [← hgk]
          simp [List.getElem_drop]
        rcases rfindChar_ge_of_get hk' hgk' with ⟨m, hm, hjm⟩
        have := hmax q hqd m hm
        omega
  · intro hnone
    have : explodeDelims.foldl (markerStep iri) none = none :=
      markerFold_eq_none.mpr ⟨rfl, fun d hd => rfindChar_eq_none.mpr (hnone d hd)⟩
    rw [explode_iri, this]

/-- Witness for C1 at concrete inputs: an IRI with delimiters splits at the
rightmost one, and a delimiter-free string is rejected. -/
theorem explode_iri_correct_witness :
    (∃ ns loc, explode_iri "http://a.b/c#d".data = .ok (ns, loc) ∧
      ns ++ loc = "http://a.b/c#d".data ∧
      (∃ d ∈ explodeDelims, ns.getLast? = some d) ∧
      ∀ c ∈ loc, c ∉ explodeDelims) ∧
    explode_iri "nodelims".data = .error "Couldn't extract IRI namespace" :=
  ⟨(explode_iri_correct "http://a.b/c#d".data).1 ⟨'#', by decide, by decide⟩,
    (explode_iri_correct "nodelims".data).2 (by decide)⟩

/-! ## The `rio_api` term model: the input type of the storer

`model::NamedNode`, `model::Subject`, `model::Term`, `model::Literal` and
`model::Triple`. A `Triple` variant of a subject or term is a nested
("RDF-star") triple. -/

structure RioNamedNode where
  iri : Str
deriving DecidableEq

inductive RioLiteral where
  | Simple (value : Str)
  | LanguageTaggedString (value : Str) (language : Str)
  | Typed (value : Str) (datatype : RioNamedNode)
deriving DecidableEq

mutual
inductive RioSubject where
  | NamedNode (node : RioNamedNode)
  | BlankNode (id : Str)
  | Triple (t : RioTriple)
inductive RioTerm where
  | NamedNode (node : RioNamedNode)
  | BlankNode (id : Str)
  | Literal (lit : RioLiteral)
  | Triple (t : RioTriple)
inductive RioTriple where
  | mk (subject : RioSubject) (predicate : RioNamedNode) (object : RioTerm)
end

def RioTriple.subject : RioTriple → RioSubject
  | .mk s _ _ => s

def RioTriple.predicate : RioTriple → RioNamedNode
  | .mk _ p _ => p

def RioTriple.object : RioTriple → RioTerm
  | .mk _ _ o => o

/-! ## `engine.rs`: the size functions (lines 262-295) -/

def node_size (node : RioNamedNode) : Nat := byteLen node.iri

def subject_size : RioSubject → Nat
  | .NamedNode n => node_size n
  | .BlankNode id => byteLen id
  | .Triple _ => 0

def object_size : RioTerm → Nat
  | .NamedNode n => node_size n
  | .BlankNode id => byteLen id
  | .Literal (.Simple value) => byteLen value
  | .Literal (.LanguageTaggedString value language) => byteLen value + byteLen language
  | .Literal (.Typed value datatype) => byteLen value + node_size datatype
  | .Triple _ => 0

def triple_size (t : RioTriple) : Nat :=
  subject_size t.subject + node_size t.predicate + object_size t.object

/-! ## The internal state types

`state.rs` is not among the staged sources; these records follow the spec's
data model (section 3) and the field accesses made by `engine.rs`. The Rust
field `namespace: u128` of `Node` is spelled `ns` (`namespace` is a Lean
keyword); `u128`/`Uint128` counters are `Nat`. -/

structure Node where
  ns : Nat
  value : Str
deriving DecidableEq

inductive Subject where
  | Named (node : Node)
  | Blank (id : Str)
deriving DecidableEq

inductive Literal where
  | Simple (value : Str)
  | I18NString (value : Str) (language : Str)
  | Typed (value : Str) (datatype : Node)
deriving DecidableEq

inductive Object where
  | Named (node : Node)
  | Blank (id : Str)
  | Literal (lit : Literal)
deriving DecidableEq

structure Triple where
  subject : Subject
  predicate : Node
  object : Object
deriving DecidableEq

structure Namespace where
  value : Str
  key : Nat
  counter : Nat
deriving DecidableEq

structure StoreStat where
  triple_count : Nat
  namespace_count : Nat
  byte_size : Nat
deriving DecidableEq

structure StoreLimits where
  max_triple_count : Nat
  max_byte_size : Nat
  max_triple_byte_size : Nat
  max_insert_data_byte_size : Nat
  max_insert_data_triple_count : Nat
deriving DecidableEq

structure Store where
  stat : StoreStat
  limits : StoreLimits
deriving DecidableEq

/-! ## Errors (`error.rs` as used by `engine.rs`) -/

inductive StoreError where
  | TripleCount (limit : Nat)
  | InsertDataTripleCount (limit : Nat)
  | TripleByteSize (size : Nat) (limit : Nat)
  | ByteSize (limit : Nat)
  | InsertDataByteSize (limit : Nat)
deriving DecidableEq

inductive ContractError where
  | Std (msg : String)
  | Store (err : StoreError)
deriving DecidableEq

/-! ## Storage keys -/

/-- Modelled from the spec: the predicate's (or a named subject's) interned
key as used in the composite triple key. `state.rs` is not staged; the spec
says the composite key holds "the predicate's interned key" and "the
subject's interned key", so a node's key is its interned namespace key
together with its local name. -/
def Node.key (n : Node) : Nat × Str := (n.ns, n.value)

/-- Modelled from the spec: the subject component of the composite key; a
blank subject has no interned namespace, so its key is its blank-node id. -/
def Subject.key : Subject → (Nat × Str) ⊕ Str
  | .Named n => .inl n.key
  | .Blank id => .inr id

/-- Modelled from the spec: `contentHash` — "a cryptographic digest of the
object term's canonical encoding"; the spec treats the digest as a pluggable
strategy ("any collision-resistant digest with stable canonical input
encoding suffices"), so it is modelled as the canonical encoding itself. -/
def Object.as_hash : Object → Str
  | .Named n => 'n' :: ((toString n.ns).data ++ ':' :: n.value)
  | .Blank id => 'b' :: id
  | .Literal (.Simple v) => 's' :: v
  | .Literal (.I18NString v lg) => 'i' :: (v ++ '@' :: lg)
  | .Literal (.Typed v dt) =>
    't' :: (v ++ '^' :: ((toString dt.ns).data ++ ':' :: dt.value))

/-- The composite storage key of a persisted triple:
(object content hash, predicate key, subject key), in that order. -/
abbrev TripleKey := Str × (Nat × Str) × ((Nat × Str) ⊕ Str)

/-! ## Association-list maps (the backend tables and the namespace cache) -/

def alookup {κ α : Type} [DecidableEq κ] : List (κ × α) → κ → Option α
  | [], _ => none
  | (k₀, v₀) :: rest, k => if k₀ = k then some v₀ else alookup rest k

def ainsert {κ α : Type} [DecidableEq κ] : List (κ × α) → κ → α → List (κ × α)
  | [], k, v => [(k, v)]
  | (k₀, v₀) :: rest, k, v =>
    if k₀ = k then (k, v) :: rest else (k₀, v₀) :: ainsert rest k v

def aremove {κ α : Type} [DecidableEq κ] : List (κ × α) → κ → List (κ × α)
  | [], _ => []
  | (k₀, v₀) :: rest, k =>
    if k₀ = k then aremove rest k else (k₀, v₀) :: aremove rest k

/-! ## The storage engine -/

/-- The persistent key-value backend's contents as the engine uses them: the
triple table, the namespace table, the allocator offset
(`NAMESPACE_KEY_INCREMENT`) and the statistics record (`STORE`). -/
structure Backend where
  triples : List (TripleKey × Triple)
  namespaces : List (Str × Namespace)
  namespace_key_increment : Nat
  store : Store
deriving DecidableEq

/-- `StoreEngine` (engine.rs lines 15-22). -/
structure StoreEngine where
  storage : Backend
  store : Store
  ns_key_inc_offset : Nat
  ns_cache : List (Str × Namespace)
  initial_triple_count : Nat
  initial_byte_size : Nat
deriving DecidableEq

/-- `StoreEngine::new`. -/
def StoreEngine.new (storage : Backend) : StoreEngine :=
  { storage := storage
    store := storage.store
    ns_key_inc_offset := storage.namespace_key_increment
    ns_cache := []
    initial_triple_count := storage.store.stat.triple_count
    initial_byte_size := storage.store.stat.byte_size }

/-- `StoreEngine::allocate_namespace`. -/
def allocate_namespace (value : Str) (e : StoreEngine) : Namespace × StoreEngine :=
  let nsp : Namespace := { value := value, key := e.ns_key_inc_offset, counter := 0 }
  (nsp,
    { e with
        store := { e.store with stat := { e.store.stat with
          namespace_count := e.store.stat.namespace_count + 1 } }
        ns_key_inc_offset := e.ns_key_inc_offset + 1 })

/-- `StoreEngine::resolve_and_reference_ns`: cache hit increments the cached
counter; otherwise the namespace is loaded from the backend or, when absent
there (`StdError::NotFound`), freshly allocated; either way the counter is
incremented and the entry cached. -/
def resolve_and_reference_ns (ns_str : Str) (e : StoreEngine) :
    Except String Nat × StoreEngine :=
  match alookup e.ns_cache ns_str with
  | some nsp =>
    (.ok nsp.key,
      { e with ns_cache :=
          ainsert e.ns_cache ns_str { nsp with counter := nsp.counter + 1 } })
  | none =>
    match alookup e.storage.namespaces ns_str with
    | some nsp =>
      (.ok nsp.key,
        { e with ns_cache :=
            ainsert e.ns_cache ns_str { nsp with counter := nsp.counter + 1 } })
    | none =>
      let (nsp, e₁) := allocate_namespace ns_str e
      (.ok nsp.key,
        { e₁ with ns_cache :=
            ainsert e₁.ns_cache ns_str { nsp with counter := nsp.counter + 1 } })

/-- `StoreEngine::resolve_and_free_ns`: like referencing but decrementing;
a namespace absent from both the cache and the backend is an error (the
`NotFound` load error propagates). The `u128` counter decrement is unchecked
in the source and modelled as truncating `Nat` subtraction. -/
def resolve_and_free_ns (ns_str : Str) (e : StoreEngine) :
    Except String Nat × StoreEngine :=
  match alookup e.ns_cache ns_str with
  | some nsp =>
    (.ok nsp.key,
      { e with ns_cache :=
          ainsert e.ns_cache ns_str { nsp with counter := nsp.counter - 1 } })
  | none =>
    match alookup e.storage.namespaces ns_str with
    | some nsp =>
      (.ok nsp.key,
        { e with ns_cache :=
            ainsert e.ns_cache ns_str { nsp with counter := nsp.counter - 1 } })
    | none => (.error "namespace not found", e)

/-- A namespace resolver as `rio_to_triple` receives one (`ns_fn`). -/
abbrev NsResolver := Str → StoreEngine → Except String Nat × StoreEngine

/-- `StoreEngine::rio_to_node`. -/
def rio_to_node (res : NsResolver) (node : RioNamedNode) (e : StoreEngine) :
    Except String Node × StoreEngine :=
  match explode_iri node.iri with
  | .error msg => (.error msg, e)
  | .ok (ns, v) =>
    match res ns e with
    | (.error msg, e₁) => (.error msg, e₁)
    | (.ok key, e₁) => (.ok { ns := key, value := v }, e₁)

/-- `StoreEngine::rio_to_subject` (engine.rs lines 207-216). -/
def rio_to_subject (res : NsResolver) : RioSubject → StoreEngine →
    Except String Subject × StoreEngine
  | .NamedNode node, e =>
    match rio_to_node res node e with
    | (.error msg, e₁) => (.error msg, e₁)
    | (.ok n, e₁) => (.ok (.Named n), e₁)
  | .BlankNode id, e => (.ok (.Blank id), e)
  | .Triple _, e => (.error "RDF star syntax unsupported", e)

/-- `StoreEngine::rio_to_literal`. -/
def rio_to_literal (res : NsResolver) : RioLiteral → StoreEngine →
    Except String Literal × StoreEngine
  | .Simple value, e => (.ok (.Simple value), e)
  | .LanguageTaggedString value language, e =>
    (.ok (.I18NString value language), e)
  | .Typed value datatype, e =>
    match rio_to_node res datatype e with
    | (.error msg, e₁) => (.error msg, e₁)
    | (.ok n, e₁) => (.ok (.Typed value n), e₁)

/-- `StoreEngine::rio_to_object` (engine.rs lines 229-239). -/
def rio_to_object (res : NsResolver) : RioTerm → StoreEngine →
    Except String Object × StoreEngine
  | .BlankNode id, e => (.ok (.Blank id), e)
  | .NamedNode node, e =>
    match rio_to_node res node e with
    | (.error msg, e₁) => (.error msg, e₁)
    | (.ok n, e₁) => (.ok (.Named n), e₁)
  | .Literal lit, e =>
    match rio_to_literal res lit e with
    | (.error msg, e₁) => (.error msg, e₁)
    | (.ok l, e₁) => (.ok (.Literal l), e₁)
  | .Triple _, e => (.error "RDF star syntax unsupported", e)

/-- `StoreEngine::rio_to_triple`: subject, then predicate, then object. -/
def rio_to_triple (res : NsResolver) (t : RioTriple) (e : StoreEngine) :
    Except String Triple × StoreEngine :=
  match rio_to_subject res t.subject e with
  | (.error msg, e₁) => (.error msg, e₁)
  | (.ok s, e₁) =>
    match rio_to_node res t.predicate e₁ with
    | (.error msg, e₂) => (.error msg, e₂)
    | (.ok p, e₂) =>
      match rio_to_object res t.object e₂ with
      | (.error msg, e₃) => (.error msg, e₃)
      | (.ok o, e₃) => (.ok { subject := s, predicate := p, object := o }, e₃)

/-- The in-memory statistics mutation `store_triple` makes before its first
two checks (`self.store.stat.triple_count += 1`). -/
def bump_triple_count (e : StoreEngine) : StoreEngine :=
  { e with store := { e.store with stat := { e.store.stat with triple_count := e.store.stat.triple_count + 1 } } }

/-- The in-memory statistics mutation `store_triple` makes before its last
two checks (`self.store.stat.byte_size += t_size`). -/
def bump_byte_size (n : Nat) (e : StoreEngine) : StoreEngine :=
  { e with store := { e.store with stat := { e.store.stat with byte_size := e.store.stat.byte_size + n } } }

/-- `StoreEngine::store_triple` (engine.rs lines 46-92): the five quota
checks in source order, then conversion, then the keyed save. Mutations made
before a failing check stay in the in-memory engine, as with `&mut self`. -/
def store_triple (t : RioTriple) (e : StoreEngine) :
    Except ContractError Unit × StoreEngine :=
  let e₁ := bump_triple_count e
  if e₁.store.stat.triple_count > e₁.store.limits.max_triple_count then
    (.error (.Store (.TripleCount e₁.store.limits.max_triple_count)), e₁)
  else if e₁.store.stat.triple_count - e₁.initial_triple_count >
      e₁.store.limits.max_insert_data_triple_count then
    (.error (.Store (.InsertDataTripleCount
      e₁.store.limits.max_insert_data_triple_count)), e₁)
  else
    let t_size := triple_size t
    if t_size > e₁.store.limits.max_triple_byte_size then
      (.error (.Store (.TripleByteSize t_size
        e₁.store.limits.max_triple_byte_size)), e₁)
    else
      let e₂ := bump_byte_size t_size e₁
      if e₂.store.stat.byte_size > e₂.store.limits.max_byte_size then
        (.error (.Store (.ByteSize e₂.store.limits.max_byte_size)), e₂)
      else if e₂.store.stat.byte_size - e₂.initial_byte_size >
          e₂.store.limits.max_insert_data_byte_size then
        (.error (.Store (.InsertDataByteSize
          e₂.store.limits.max_insert_data_byte_size)), e₂)
      else
        match rio_to_triple resolve_and_reference_ns t e₂ with
        | (.error msg, e₃) => (.error (.Std msg), e₃)
        | (.ok triple, e₃) =>
          let key : TripleKey :=
            (triple.object.as_hash, triple.predicate.key, triple.subject.key)
          let storage₁ :=
            { e₃.storage with triples := ainsert e₃.storage.triples key triple }
          (.ok (), { e₃ with storage := storage₁ })

/-- `StoreEngine::delete_triple` (engine.rs lines 101-120). The `rdf::Atom`
argument is modelled as the `model::Triple` its `Into` conversion yields.
The `Uint128` statistics subtractions are unchecked in the source and
modelled as truncating `Nat` subtraction. -/
def delete_triple (t : RioTriple) (e : StoreEngine) :
    Except ContractError Unit × StoreEngine :=
  match rio_to_triple resolve_and_free_ns t e with
  | (.error msg, e₁) => (.error (.Std msg), e₁)
  | (.ok triple, e₁) =>
    let stat := { e₁.store.stat with
      triple_count := e₁.store.stat.triple_count - 1,
      byte_size := e₁.store.stat.byte_size - triple_size t }
    let e₂ := { e₁ with store := { e₁.store with stat := stat } }
    let key : TripleKey :=
      (triple.object.as_hash, triple.predicate.key, triple.subject.key)
    let storage₁ := { e₂.storage with triples := aremove e₂.storage.triples key }
    (.ok (), { e₂ with storage := storage₁ })

/-- The namespace-flush loop of `finish` (engine.rs lines 127-134): fold the
cache over the backend namespace table and the namespace-count statistic. -/
def commit_ns_cache : List (Str × Namespace) → List (Str × Namespace) → Nat →
    List (Str × Namespace) × Nat
  | [], table, count => (table, count)
  | (k, nsp) :: rest, table, count =>
    if nsp.counter > 0 then commit_ns_cache rest (ainsert table k nsp) count
    else commit_ns_cache rest (aremove table k) (count - 1)

/-- `StoreEngine::finish` (engine.rs lines 124-149). -/
def finish (e : StoreEngine) : Nat × StoreEngine :=
  let storage₁ := { e.storage with namespace_key_increment := e.ns_key_inc_offset }
  let flushed :=
    commit_ns_cache e.ns_cache storage₁.namespaces e.store.stat.namespace_count
  let store₁ := { e.store with stat :=
    { e.store.stat with namespace_count := flushed.2 } }
  let storage₂ := { storage₁ with namespaces := flushed.1, store := store₁ }
  let count_diff :=
    if e.initial_triple_count ≤ store₁.stat.triple_count
    then store₁.stat.triple_count - e.initial_triple_count
    else e.initial_triple_count - store₁.stat.triple_count
  (count_diff,
    { e with
        storage := storage₂
        store := store₁
        initial_triple_count := store₁.stat.triple_count
        initial_byte_size := store₁.stat.byte_size
        ns_cache := [] })

/-- `TripleReader::read_all` feeding `store_triple`: the parsed stream is
modelled as a list of parse results; a parse error or a `store_triple` error
stops the loop and is returned. -/
def read_all_store : List (Except ContractError RioTriple) → StoreEngine →
    Except ContractError Unit × StoreEngine
  | [], e => (.ok (), e)
  | .error err :: _, e => (.error err, e)
  | .ok t :: rest, e =>
    match store_triple t e with
    | (.error err, e₁) => (.error err, e₁)
    | (.ok _, e₁) => read_all_store rest e₁

/-- `StoreEngine::store_all` (engine.rs lines 38-44): read and store every
triple, then `finish`; an error skips `finish` entirely. -/
def store_all (items : List (Except ContractError RioTriple)) (e : StoreEngine) :
    Except ContractError Nat × StoreEngine :=
  match read_all_store items e with
  | (.error err, e₁) => (.error err, e₁)
  | (.ok _, e₁) =>
    let fin := finish e₁
    (.ok fin.1, fin.2)

/-! ## Claim C3: the triple size formula -/

/-- `true` when a subject is not a nested (RDF-star) triple. -/
def RioSubject.starFree : RioSubject → Bool
  | .Triple _ => false
  | _ => true

/-- `true` when an object term is not a nested (RDF-star) triple. -/
def RioTerm.starFree : RioTerm → Bool
  | .Triple _ => false
  | _ => true

/-- The size formula as the claim words it: the predicate's IRI byte length,
plus the subject's IRI or blank-id byte length, plus the object's
IRI/blank-id/literal byte length, a literal's size being its value length
plus its language-tag length (language-tagged) or datatype IRI length
(typed). Nested triples are outside the claim's scope (guarded by
`starFree`). -/
def claimed_triple_size (s : RioSubject) (p : RioNamedNode) (o : RioTerm) : Nat :=
  byteLen p.iri +
    (match s with
      | .NamedNode n => byteLen n.iri
      | .BlankNode id => byteLen id
      | .Triple _ => 0) +
    (match o with
      | .NamedNode n => byteLen n.iri
      | .BlankNode id => byteLen id
      | .Literal (.Simple v) => byteLen v
      | .Literal (.LanguageTaggedString v lg) => byteLen v + byteLen lg
      | .Literal (.Typed v dt) => byteLen v + byteLen dt.iri
      | .Triple _ => 0)

/-- C3: for every (non-RDF-star) triple, `triple_size` equals the sum of the
UTF-8 byte lengths of its three textual components: the predicate's IRI
length, plus the subject's IRI length (named) or blank-node-id length
(blank), plus the object's IRI length (named), blank-node-id length (blank)
or literal length, a literal's size being its value length plus its
language-tag length or its datatype IRI length. -/
theorem triple_size_component_sum (s : RioSubject) (p : RioNamedNode)
    (o : RioTerm) (hs : s.starFree = true) (ho : o.starFree = true) :
    triple_size (.mk s p o) = claimed_triple_size s p o := by
  cases s with
  | Triple st => simp [RioSubject.starFree] at hs
  | NamedNode sn =>
    cases o with
    | Triple ot => simp [RioTerm.starFree] at ho
    | Literal lit =>
      cases lit <;>
        (simp [triple_size, claimed_triple_size, RioTriple.subject,
          RioTriple.predicate, RioTriple.object, subject_size, object_size,
          node_size]
         omega)
    | NamedNode onn =>
      simp [triple_size, claimed_triple_size, RioTriple.subject,
        RioTriple.predicate, RioTriple.object, subject_size, object_size,
        node_size]
      omega
    | BlankNode ob =>
      simp [triple_size, claimed_triple_size, RioTriple.subject,
        RioTriple.predicate, RioTriple.object, subject_size, object_size,
        node_size]
      omega
  | BlankNode sb =>
    cases o with
    | Triple ot => simp [RioTerm.starFree] at ho
    | Literal lit =>
      cases lit <;>
        (simp [triple_size, claimed_triple_size, RioTriple.subject,
          RioTriple.predicate, RioTriple.object, subject_size, object_size,
          node_size]
         omega)
    | NamedNode onn =>
      simp [triple_size, claimed_triple_size, RioTriple.subject,
        RioTriple.predicate, RioTriple.object, subject_size, object_size,
        node_size]
      omega
    | BlankNode ob =>
      simp [triple_size, claimed_triple_size, RioTriple.subject,
        RioTriple.predicate, RioTriple.object, subject_size, object_size,
        node_size]
      omega

/-- Witness for C3: the size of a concrete triple, computed by the source's
`triple_size`, equals the claim's component sum. -/
theorem triple_size_component_sum_witness :
    triple_size (.mk (.NamedNode ⟨"http://e/s".data⟩) ⟨"http://e/p".data⟩
        (.Literal (.LanguageTaggedString "val".data "en".data))) =
      claimed_triple_size (.NamedNode ⟨"http://e/s".data⟩) ⟨"http://e/p".data⟩
        (.Literal (.LanguageTaggedString "val".data "en".data)) :=
  triple_size_component_sum _ _ _ (by decide) (by decide)

/-! ## Claim C2: quota check order in `store_triple` -/

/-- C2: the five quota checks of `store_triple` run in the specified order —
(1) post-increment triple count against `max_triple_count`, (2) batch
triple-count increase against `max_insert_data_triple_count`, (3) the
triple's own size against `max_triple_byte_size`, (4) post-increment byte
size against `max_byte_size`, (5) batch byte-size increase against
`max_insert_data_byte_size` — the first violated bound returns its distinct
error carrying the configured limit, later bounds are not consulted, and a
quota failure writes nothing to storage. -/
theorem store_triple_quota_order (e : StoreEngine) (t : RioTriple) :
    (e.store.stat.triple_count + 1 > e.store.limits.max_triple_count →
      store_triple t e =
        (.error (.Store (.TripleCount e.store.limits.max_triple_count)),
          bump_triple_count e)) ∧
    (e.store.stat.triple_count + 1 ≤ e.store.limits.max_triple_count →
      e.store.stat.triple_count + 1 - e.initial_triple_count >
        e.store.limits.max_insert_data_triple_count →
      store_triple t e =
        (.error (.Store (.InsertDataTripleCount
            e.store.limits.max_insert_data_triple_count)),
          bump_triple_count e)) ∧
    (e.store.stat.triple_count + 1 ≤ e.store.limits.max_triple_count →
      e.store.stat.triple_count + 1 - e.initial_triple_count ≤
        e.store.limits.max_insert_data_triple_count →
      triple_size t > e.store.limits.max_triple_byte_size →
      store_triple t e =
        (.error (.Store (.TripleByteSize (triple_size t)
            e.store.limits.max_triple_byte_size)),
          bump_triple_count e)) ∧
    (e.store.stat.triple_count + 1 ≤ e.store.limits.max_triple_count →
      e.store.stat.triple_count + 1 - e.initial_triple_count ≤
        e.store.limits.max_insert_data_triple_count →
      triple_size t ≤ e.store.limits.max_triple_byte_size →
      e.store.stat.byte_size + triple_size t > e.store.limits.max_byte_size →
      store_triple t e =
        (.error (.Store (.ByteSize e.store.limits.max_byte_size)),
          bump_byte_size (triple_size t) (bump_triple_count e))) ∧
    (e.store.stat.triple_count + 1 ≤ e.store.limits.max_triple_count →
      e.store.stat.triple_count + 1 - e.initial_triple_count ≤
        e.store.limits.max_insert_data_triple_count →
      triple_size t ≤ e.store.limits.max_triple_byte_size →
      e.store.stat.byte_size + triple_size t ≤ e.store.limits.max_byte_size →
      e.store.stat.byte_size + triple_size t - e.initial_byte_size >
        e.store.limits.max_insert_data_byte_size →
      store_triple t e =
        (.error (.Store (.InsertDataByteSize
            e.store.limits.max_insert_data_byte_size)),
          bump_byte_size (triple_size t) (bump_triple_count e))) ∧
    (∀ err e', store_triple t e = (.error (.Store err), e') →
      e'.storage = e.storage) := by
  refine ⟨?_, ?_, ?_, ?_, ?_, ?_⟩
  · intro h1
    simp only [store_triple, bump_triple_count]
    rw [if_pos h1]
  · intro h1 h2
    simp only [store_triple, bump_triple_count]
    rw [if_neg (by omega), if_pos h2]
  · intro h1 h2 h3
    simp only [store_triple, bump_triple_count]
    rw [if_neg (by omega), if_neg (by omega), if_pos h3]
  · intro h1 h2 h3 h4
    simp only [store_triple, bump_triple_count, bump_byte_size]
    rw [if_neg (by omega), if_neg (by omega), if_neg (by omega), if_pos h4]
  · intro h1 h2 h3 h4 h5
    simp only [store_triple, bump_triple_count, bump_byte_size]
    rw [if_neg (by omega), if_neg (by omega), if_neg (by omega),
      if_neg (by omega), if_pos h5]
  · intro err e' h
    simp only [store_triple] at h
    split at h
    · cases h; rfl
    · split at h
      · cases h; rfl
      · split at h
        · cases h; rfl
        · split at h
          · cases h; rfl
          · split at h
            · cases h; rfl
            · split at h
              · cases h
              · cases h

/-! ## Claim C10: RDF-star terms are rejected with a dedicated error -/

/-- `explode_iri` has a single error message. -/
theorem explode_iri_error_msg {iri : Str} {msg : String}
    (h : explode_iri iri = .error msg) :
    msg = "Couldn't extract IRI namespace" := by
  unfold explode_iri at h
  split at h
  · cases h
  · cases h
    rfl

/-- `resolve_and_reference_ns` never fails: a namespace missing from both
the cache and the backend is freshly allocated. -/
theorem resolve_and_reference_ns_ok (ns_str : Str) (e : StoreEngine) :
    ∃ k e₁, resolve_and_reference_ns ns_str e = (.ok k, e₁) := by
  unfold resolve_and_reference_ns
  split
  · exact ⟨_, _, rfl⟩
  · split
    · exact ⟨_, _, rfl⟩
    · exact ⟨_, _, rfl⟩

/-- C10: a nested ("RDF-star") subject or object makes the conversion to the
internal representation fail with the dedicated RDF-star-unsupported error,
and so does a whole triple whose subject is nested; named nodes, blank nodes
and (in object position) literals never produce that error. -/
theorem rdf_star_unsupported (e : StoreEngine) :
    (∀ t, (rio_to_subject resolve_and_reference_ns (.Triple t) e).1 =
      .error "RDF star syntax unsupported") ∧
    (∀ t, (rio_to_object resolve_and_reference_ns (.Triple t) e).1 =
      .error "RDF star syntax unsupported") ∧
    (∀ s, (∀ t, s ≠ .Triple t) →
      (rio_to_subject resolve_and_reference_ns s e).1 ≠
        .error "RDF star syntax unsupported") ∧
    (∀ o, (∀ t, o ≠ .Triple t) →
      (rio_to_object resolve_and_reference_ns o e).1 ≠
        .error "RDF star syntax unsupported") ∧
    (∀ t p o, (rio_to_triple resolve_and_reference_ns (.mk (.Triple t) p o) e).1 =
      .error "RDF star syntax unsupported") := by
  have hnode : ∀ (node : RioNamedNode) (e₀ : StoreEngine),
      (rio_to_node resolve_and_reference_ns node e₀).1 ≠
        .error "RDF star syntax unsupported" := by
    intro node e₀
    unfold rio_to_node
    cases hx : explode_iri node.iri with
    | error msg =>
      have := explode_iri_error_msg hx
      subst this
      simp
    | ok p =>
      obtain ⟨ns, v⟩ := p
      rcases resolve_and_reference_ns_ok ns e₀ with ⟨k, e₁, hr⟩
      simp [hr]
  refine ⟨fun t => rfl, fun t => rfl, ?_, ?_, ?_⟩
  · intro s hs
    cases s with
    | NamedNode node =>
      have h := hnode node e
      simp only [rio_to_subject]
      rcases hn : rio_to_node resolve_and_reference_ns node e with ⟨r, e₁⟩
      rw [hn] at h
      cases r with
      | error msg => simpa using h
      | ok n => simp
    | BlankNode id => simp [rio_to_subject]
    | Triple t => exact absurd rfl (hs t)
  · intro o ho
    cases o with
    | NamedNode node =>
      have h := hnode node e
      simp only [rio_to_object]
      rcases hn : rio_to_node resolve_and_reference_ns node e with ⟨r, e₁⟩
      rw [hn] at h
      cases r with
      | error msg => simpa using h
      | ok n => simp
    | BlankNode id => simp [rio_to_object]
    | Literal lit =>
      cases lit with
      | Simple v => simp [rio_to_object, rio_to_literal]
      | LanguageTaggedString v lg => simp [rio_to_object, rio_to_literal]
      | Typed v dt =>
        have h := hnode dt e
        simp only [rio_to_object, rio_to_literal]
        rcases hn : rio_to_node resolve_and_reference_ns dt e with ⟨r, e₁⟩
        rw [hn] at h
        cases r with
        | error msg => simpa using h
        | ok n => simp
    | Triple t => exact absurd rfl (ho t)
  · intro t p o
    rfl

/-! ## Claim C9: literal resolution in the term mapper (`rdf/mapper.rs`) -/

/-- `msg::IRI` (msg.rs is not among the staged sources; the shape is fixed
by the patterns matched in mapper.rs): a full IRI or a prefixed CURIE. -/
inductive IRI where
  | Full (uri : Str)
  | Prefixed (curie : Str)
deriving DecidableEq

/-- `msg::Value` as matched by mapper.rs: a URI, a literal with optional
language tag and optional datatype, or a blank node. -/
inductive MsgValue where
  | URI (value : IRI)
  | Literal (value : Str) (lang : Option Str) (datatype : Option IRI)
  | BlankNode (value : Str)
deriving DecidableEq

/-- The internal `rdf::Value` the mapper produces (its constructors are
fixed by their uses in mapper.rs). -/
inductive Value where
  | NamedNode (uri : Str)
  | BlankNode (id : Str)
  | LiteralSimple (value : Str)
  | LiteralLang (value : Str) (lang : Str)
  | LiteralDatatype (value : Str) (datatype : Str)
deriving DecidableEq

/-- Split a CURIE at its first colon. -/
def splitFirstColon : Str → Option (Str × Str)
  | [] => none
  | c :: rest =>
    if c = ':' then some ([], rest)
    else (splitFirstColon rest).map (fun p => (c :: p.1, p.2))

/-- Modelled from the spec: `expand_uri` — CURIE expansion of
`prefix:local` "looks up the prefix portion in the map; an unknown prefix
fails with a namespace-not-found error" (the function itself is not in the
staged sources). -/
def expand_uri (curie : Str) (pm : List (Str × Str)) : Except String Str :=
  match splitFirstColon curie with
  | none => .error "Malformed CURIE"
  | some (pr, loc) =>
    match alookup pm pr with
    | none => .error "Couldn't find namespace"
    | some ns => .ok (ns ++ loc)

/-- `TryFrom<(msg::Value, &HashMap<String, String>)> for Value`
(mapper.rs lines 47-86): resolution of an external value description in
object position. -/
def Value.try_from (v : MsgValue) (pm : List (Str × Str)) : Except String Value :=
  match v with
  | .URI (.Full uri) => .ok (.NamedNode uri)
  | .URI (.Prefixed curie) =>
    match expand_uri curie pm with
    | .error msg => .error msg
    | .ok uri => .ok (.NamedNode uri)
  | .Literal value none none => .ok (.LiteralSimple value)
  | .Literal value (some lang) none => .ok (.LiteralLang value lang)
  | .Literal value none (some (.Full uri)) => .ok (.LiteralDatatype value uri)
  | .Literal value none (some (.Prefixed curie)) =>
    match expand_uri curie pm with
    | .error msg => .error msg
    | .ok uri => .ok (.LiteralDatatype value uri)
  | .Literal _ (some _) (some _) => .error "Unsupported object value"
  | .BlankNode value => .ok (.BlankNode value)

/-- Counterexample to C9 as stated: a literal carrying only a datatype — a
prefixed datatype IRI whose prefix is not in the prefix map — does not
resolve successfully; it fails with the namespace-not-found error. -/
theorem literal_datatype_only_can_fail :
    Value.try_from (.Literal "v".data none (some (.Prefixed "x:y".data))) [] =
      .error "Couldn't find namespace" := rfl

/-- C9 (amended): a literal description asserting both a language tag and a
datatype is rejected; one with only a language tag resolves to
`LiteralLang`, one with neither qualifier to `LiteralSimple`; one with only
a datatype resolves to `LiteralDatatype` when the datatype is a full IRI or
a CURIE whose prefix expands in the prefix map, and fails with the
expansion's namespace-not-found error when it does not. -/
theorem literal_resolution_rules (value : Str) (pm : List (Str × Str)) :
    (∀ lang dt, Value.try_from (.Literal value (some lang) (some dt)) pm =
      .error "Unsupported object value") ∧
    (∀ lang, Value.try_from (.Literal value (some lang) none) pm =
      .ok (.LiteralLang value lang)) ∧
    (Value.try_from (.Literal value none none) pm =
      .ok (.LiteralSimple value)) ∧
    (∀ uri, Value.try_from (.Literal value none (some (.Full uri))) pm =
      .ok (.LiteralDatatype value uri)) ∧
    (∀ curie uri, expand_uri curie pm = .ok uri →
      Value.try_from (.Literal value none (some (.Prefixed curie))) pm =
        .ok (.LiteralDatatype value uri)) ∧
    (∀ curie msg, expand_uri curie pm = .error msg →
      Value.try_from (.Literal value none (some (.Prefixed curie))) pm =
        .error msg) := by
  refine ⟨fun lang dt => rfl, fun lang => rfl, rfl, fun uri => rfl, ?_, ?_⟩
  · intro curie uri h
    simp [Value.try_from, h]
  · intro curie msg h
    simp [Value.try_from, h]

/-! ## Association-list lemmas -/

theorem alookup_ainsert_self {κ α : Type} [DecidableEq κ]
    (l : List (κ × α)) (k : κ) (v : α) : alookup (ainsert l k v) k = some v := by
  induction l with
  | nil => simp [ainsert, alookup]
  | cons p rest ih =>
    obtain ⟨k₀, v₀⟩ := p
    by_cases h : k₀ = k
    · simp [ainsert, h, alookup]
    · simp [ainsert, h, alookup, ih]

theorem alookup_ainsert_ne {κ α : Type} [DecidableEq κ]
    (l : List (κ × α)) (k k' : κ) (v : α) (hne : k ≠ k') :
    alookup (ainsert l k v) k' = alookup l k' := by
  induction l with
  | nil => simp [ainsert, alookup, hne]
  | cons p rest ih =>
    obtain ⟨k₀, v₀⟩ := p
    by_cases h : k₀ = k
    · subst h
      simp [ainsert, alookup, hne]
    · simp [ainsert, h, alookup, ih]

theorem alookup_aremove_self {κ α : Type} [DecidableEq κ]
    (l : List (κ × α)) (k : κ) : alookup (aremove l k) k = none := by
  induction l with
  | nil => simp [aremove, alookup]
  | cons p rest ih =>
    obtain ⟨k₀, v₀⟩ := p
    by_cases h : k₀ = k
    · simp [aremove, h, ih]
    · simp [aremove, h, alookup, ih]

theorem alookup_aremove_ne {κ α : Type} [DecidableEq κ]
    (l : List (κ × α)) (k k' : κ) (hne : k ≠ k') :
    alookup (aremove l k) k' = alookup l k' := by
  induction l with
  | nil => simp [aremove, alookup]
  | cons p rest ih =>
    obtain ⟨k₀, v₀⟩ := p
    by_cases h : k₀ = k
    · subst h
      simp [aremove, alookup, hne, ih]
    · simp [aremove, h, alookup, ih]

theorem alookup_eq_none_iff {κ α : Type} [DecidableEq κ]
    (l : List (κ × α)) (k : κ) :
    alookup l k = none ↔ k ∉ l.map Prod.fst := by
  induction l with
  | nil => simp [alookup]
  | cons p rest ih =>
    obtain ⟨k₀, v₀⟩ := p
    by_cases h : k₀ = k
    · simp [alookup, h]
    · rw [alookup, if_neg h, ih]
      simp only [List.map_cons, List.mem_cons]
      constructor
      · intro hk hor
        rcases hor with hk0 | hm
        · exact h hk0.symm
        · exact hk hm
      · intro hk hm
        exact hk (Or.inr hm)

/-! ## Lemmas about the namespace-flush loop -/

theorem commit_ns_cache_count (cache : List (Str × Namespace))
    (table : List (Str × Namespace)) (count : Nat) :
    (commit_ns_cache cache table count).2 =
      count - (cache.filter (fun p => p.2.counter = 0)).length := by
  induction cache generalizing table count with
  | nil => simp [commit_ns_cache]
  | cons p rest ih =>
    obtain ⟨k₀, n₀⟩ := p
    by_cases h : n₀.counter > 0
    · have hf : n₀.counter ≠ 0 := by omega
      simp [commit_ns_cache, h, ih, hf]
    · have hf : n₀.counter = 0 := by omega
      simp [commit_ns_cache, h, ih, hf]
      omega

theorem commit_ns_cache_lookup_not_mem (cache table : List (Str × Namespace))
    (count : Nat) (k : Str) (h : alookup cache k = none) :
    alookup (commit_ns_cache cache table count).1 k = alookup table k := by
  induction cache generalizing table count with
  | nil => simp [commit_ns_cache]
  | cons p rest ih =>
    obtain ⟨k₀, n₀⟩ := p
    have hne : k₀ ≠ k := by
      intro hk
      simp [alookup, hk] at h
    have hrest : alookup rest k = none := by
      simpa [alookup, hne] using h
    by_cases hc : n₀.counter > 0
    · simp only [commit_ns_cache, if_pos hc]
      rw [ih _ _ hrest, alookup_ainsert_ne _ _ _ _ hne]
    · simp only [commit_ns_cache, if_neg hc]
      rw [ih _ _ hrest, alookup_aremove_ne _ _ _ hne]

theorem commit_ns_cache_lookup_mem (cache table : List (Str × Namespace))
    (count : Nat) (k : Str) (n : Namespace)
    (hnd : (cache.map Prod.fst).Nodup) (h : alookup cache k = some n) :
    alookup (commit_ns_cache cache table count).1 k =
      if n.counter > 0 then some n else none := by
  induction cache generalizing table count with
  | nil => simp [alookup] at h
  | cons p rest ih =>
    obtain ⟨k₀, n₀⟩ := p
    by_cases hk : k₀ = k
    · subst hk
      have hn : n₀ = n := by simpa [alookup] using h
      rw [← hn]
      have hrest : alookup rest k₀ = none := by
        rw [alookup_eq_none_iff]
        have hnd₁ := hnd
        rw [List.map_cons, List.nodup_cons] at hnd₁
        exact hnd₁.1
      by_cases hc : n₀.counter > 0
      · simp only [commit_ns_cache, if_pos hc]
        rw [commit_ns_cache_lookup_not_mem _ _ _ _ hrest, alookup_ainsert_self]
      · simp only [commit_ns_cache, if_neg hc]
        rw [commit_ns_cache_lookup_not_mem _ _ _ _ hrest, alookup_aremove_self]
    · have hrest : alookup rest k = some n := by
        simpa [alookup, hk] using h
      have hnd' : (rest.map Prod.fst).Nodup := by
        have hnd₁ := hnd
        rw [List.map_cons, List.nodup_cons] at hnd₁
        exact hnd₁.2
      by_cases hc : n₀.counter > 0
      · simp only [commit_ns_cache, if_pos hc]
        exact ih _ _ hnd' hrest
      · simp only [commit_ns_cache, if_neg hc]
        exact ih _ _ hnd' hrest

/-! ## Claim C5: what `finish` does -/

/-- C5: `finish` writes the allocator offset to the backend; every cached
namespace is persisted when its counter is positive and removed otherwise,
with the namespace-count statistic decremented once per removed entry while
triple count and byte size are untouched; the (updated) statistics record is
persisted; the returned value is the absolute difference between the triple
count at batch start and at batch end; and the cache is cleared and the
initial counters rebased for the next batch. -/
theorem finish_spec (e : StoreEngine) (k : Str)
    (hnd : (e.ns_cache.map Prod.fst).Nodup) :
    (finish e).2.storage.namespace_key_increment = e.ns_key_inc_offset ∧
    (match alookup e.ns_cache k with
      | some n => alookup (finish e).2.storage.namespaces k =
          if n.counter > 0 then some n else none
      | none => alookup (finish e).2.storage.namespaces k =
          alookup e.storage.namespaces k) ∧
    (finish e).2.store.stat.namespace_count =
      e.store.stat.namespace_count -
        (e.ns_cache.filter (fun p => p.2.counter = 0)).length ∧
    (finish e).2.store.stat.triple_count = e.store.stat.triple_count ∧
    (finish e).2.store.stat.byte_size = e.store.stat.byte_size ∧
    (finish e).2.storage.store = (finish e).2.store ∧
    (finish e).1 = Nat.dist e.store.stat.triple_count e.initial_triple_count ∧
    (finish e).2.initial_triple_count = e.store.stat.triple_count ∧
    (finish e).2.initial_byte_size = e.store.stat.byte_size ∧
    (finish e).2.ns_cache = [] := by
  refine ⟨rfl, ?_, ?_, rfl, rfl, rfl, ?_, rfl, rfl, rfl⟩
  · cases h : alookup e.ns_cache k with
    | some n =>
      simp only [finish]
      exact commit_ns_cache_lookup_mem _ _ _ _ _ hnd h
    | none =>
      simp only [finish]
      exact commit_ns_cache_lookup_not_mem _ _ _ _ h
  · simp only [finish]
    exact commit_ns_cache_count _ _ _
  · simp only [finish, Nat.dist]
    split <;> omega

/-- Example quota configuration used by concrete witness states. -/
def exampleLimits : StoreLimits :=
  { max_triple_count := 10, max_byte_size := 100, max_triple_byte_size := 50, max_insert_data_byte_size := 100, max_insert_data_triple_count := 10 }

/-- A concrete engine for the C5 witness: the cache holds one namespace with
a positive counter and one with counter zero; the backend still stores the
zero-counter one. -/
def finishExample : StoreEngine :=
  { storage := { triples := [], namespaces := [("b:".data, Namespace.mk "b:".data 1 3)], namespace_key_increment := 1, store := { stat := { triple_count := 4, namespace_count := 2, byte_size := 40 }, limits := exampleLimits } }
    store := { stat := { triple_count := 3, namespace_count := 2, byte_size := 30 }, limits := exampleLimits }
    ns_key_inc_offset := 2
    ns_cache := [("a:".data, Namespace.mk "a:".data 0 2), ("b:".data, Namespace.mk "b:".data 1 0)]
    initial_triple_count := 4
    initial_byte_size := 40 }

/-- Witness for C5 at the concrete engine `finishExample`, looked up at the
zero-counter namespace. -/
theorem finish_spec_witness :
    (finish finishExample).2.storage.namespace_key_increment =
      finishExample.ns_key_inc_offset ∧
    (match alookup finishExample.ns_cache "b:".data with
      | some n => alookup (finish finishExample).2.storage.namespaces "b:".data =
          if n.counter > 0 then some n else none
      | none => alookup (finish finishExample).2.storage.namespaces "b:".data =
          alookup finishExample.storage.namespaces "b:".data) ∧
    (finish finishExample).2.store.stat.namespace_count =
      finishExample.store.stat.namespace_count -
        (finishExample.ns_cache.filter (fun p => p.2.counter = 0)).length ∧
    (finish finishExample).2.store.stat.triple_count =
      finishExample.store.stat.triple_count ∧
    (finish finishExample).2.store.stat.byte_size =
      finishExample.store.stat.byte_size ∧
    (finish finishExample).2.storage.store = (finish finishExample).2.store ∧
    (finish finishExample).1 =
      Nat.dist finishExample.store.stat.triple_count
        finishExample.initial_triple_count ∧
    (finish finishExample).2.initial_triple_count =
      finishExample.store.stat.triple_count ∧
    (finish finishExample).2.initial_byte_size =
      finishExample.store.stat.byte_size ∧
    (finish finishExample).2.ns_cache = [] :=
  finish_spec finishExample "b:".data (by
    simp [finishExample, List.nodup_cons])

/-! ## Claim C6: namespace reference counting is conserved -/

theorem ainsert_keys_of_none {κ α : Type} [DecidableEq κ]
    {l : List (κ × α)} {k : κ} (v : α) (h : alookup l k = none) :
    (ainsert l k v).map Prod.fst = l.map Prod.fst ++ [k] := by
  induction l with
  | nil => simp [ainsert]
  | cons p rest ih =>
    obtain ⟨k₀, v₀⟩ := p
    by_cases hk : k₀ = k
    · simp [alookup, hk] at h
    · have hrest : alookup rest k = none := by simpa [alookup, hk] using h
      simp [ainsert, hk, ih hrest]

theorem ainsert_keys_of_some {κ α : Type} [DecidableEq κ]
    {l : List (κ × α)} {k : κ} (v : α) {w : α} (h : alookup l k = some w) :
    (ainsert l k v).map Prod.fst = l.map Prod.fst := by
  induction l with
  | nil => simp [alookup] at h
  | cons p rest ih =>
    obtain ⟨k₀, v₀⟩ := p
    by_cases hk : k₀ = k
    · simp [ainsert, hk]
    · have hrest : alookup rest k = some w := by simpa [alookup, hk] using h
      simp [ainsert, hk, ih hrest]

/-- A per-namespace sequence of engine reference operations: `true` is an
insert reference (`resolve_and_reference_ns`), `false` a delete release
(`resolve_and_free_ns`). -/
def applyNsOps : List Bool → Str → StoreEngine → Except String StoreEngine
  | [], _, e => .ok e
  | op :: rest, ns, e =>
    match (if op then resolve_and_reference_ns ns e
           else resolve_and_free_ns ns e) with
    | (.ok _, e₁) => applyNsOps rest ns e₁
    | (.error msg, _) => .error msg

/-- Running a reference/release sequence on a cached namespace succeeds and
leaves its cached counter at the initial value plus references minus
releases, provided no prefix releases more than has been referenced; the
cache's key list and the backend are untouched. -/
theorem applyNsOps_cached (ns : Str) :
    ∀ (ops : List Bool) (e : StoreEngine) (n : Namespace),
    alookup e.ns_cache ns = some n →
    (∀ m, ((ops.take m).count false) ≤ n.counter + (ops.take m).count true) →
    ∃ e₁, applyNsOps ops ns e = .ok e₁ ∧
      alookup e₁.ns_cache ns =
        some (Namespace.mk n.value n.key
          (n.counter + ops.count true - ops.count false)) ∧
      e₁.ns_cache.map Prod.fst = e.ns_cache.map Prod.fst ∧
      e₁.storage = e.storage := by
  intro ops
  induction ops with
  | nil =>
    intro e n h hpre
    refine ⟨e, rfl, ?_, rfl, rfl⟩
    simpa [applyNsOps] using h
  | cons op rest ih =>
    intro e n h hpre
    cases op with
    | true =>
      have hstep : resolve_and_reference_ns ns e =
          (.ok n.key,
            { e with ns_cache := ainsert e.ns_cache ns { n with counter := n.counter + 1 } }) := by
        simp [resolve_and_reference_ns, h]
      have hcache : alookup (ainsert e.ns_cache ns
          { n with counter := n.counter + 1 }) ns =
          some { n with counter := n.counter + 1 } := alookup_ainsert_self _ _ _
      have hpre' : ∀ m, ((rest.take m).count false) ≤
          (n.counter + 1) + (rest.take m).count true := by
        intro m
        have := hpre (m + 1)
        simp [List.take_succ_cons, List.count_cons] at this
        omega
      rcases ih { e with ns_cache := ainsert e.ns_cache ns { n with counter := n.counter + 1 } }
          { n with counter := n.counter + 1 } hcache
          (by simpa using hpre') with ⟨e₁, hrun, hlook, hkeys, hstore⟩
      refine ⟨e₁, ?_, ?_, ?_, ?_⟩
      · simp only [applyNsOps, hstep]
        exact hrun
      · rw [hlook]
        simp only [List.count_cons]
        congr 2
        simp
        omega
      · rw [hkeys]
        exact ainsert_keys_of_some _ h
      · exact hstore
    | false =>
      have hc1 : 1 ≤ n.counter := by
        have := hpre 1
        simpa using this
      have hstep : resolve_and_free_ns ns e =
          (.ok n.key,
            { e with ns_cache := ainsert e.ns_cache ns { n with counter := n.counter - 1 } }) := by
        simp [resolve_and_free_ns, h]
      have hcache : alookup (ainsert e.ns_cache ns
          { n with counter := n.counter - 1 }) ns =
          some { n with counter := n.counter - 1 } := alookup_ainsert_self _ _ _
      have hpre' : ∀ m, ((rest.take m).count false) ≤
          (n.counter - 1) + (rest.take m).count true := by
        intro m
        have := hpre (m + 1)
        simp [List.take_succ_cons, List.count_cons] at this
        omega
      rcases ih { e with ns_cache := ainsert e.ns_cache ns { n with counter := n.counter - 1 } }
          { n with counter := n.counter - 1 } hcache
          (by simpa using hpre') with ⟨e₁, hrun, hlook, hkeys, hstore⟩
      refine ⟨e₁, ?_, ?_, ?_, ?_⟩
      · simp only [applyNsOps, hstep]
        exact hrun
      · rw [hlook]
        simp only [List.count_cons]
        congr 2
        simp
        omega
      · rw [hkeys]
        exact ainsert_keys_of_some _ h
      · exact hstore

/-- C6: for a namespace absent from both the backend and the batch cache,
any insert-reference/delete-release sequence that never releases more than
it has referenced and nets the counter to zero succeeds, and after `finish`
the namespace record is absent from persistent storage. -/
theorem namespace_refcount_conserved (ops : List Bool) (ns : Str)
    (e : StoreEngine)
    (hb : alookup e.storage.namespaces ns = none)
    (hc : alookup e.ns_cache ns = none)
    (hnd : (e.ns_cache.map Prod.fst).Nodup)
    (hbal : ops.count true = ops.count false)
    (hpre : ∀ m, ((ops.take m).count false) ≤ (ops.take m).count true) :
    ∃ e₁, applyNsOps ops ns e = .ok e₁ ∧
      alookup (finish e₁).2.storage.namespaces ns = none := by
  cases ops with
  | nil =>
    refine ⟨e, rfl, ?_⟩
    simp only [finish]
    rw [commit_ns_cache_lookup_not_mem _ _ _ _ hc]
    exact hb
  | cons op rest =>
    cases op with
    | false =>
      have := hpre 1
      simp at this
    | true =>
      have hstep : resolve_and_reference_ns ns e =
          (.ok e.ns_key_inc_offset,
            { e with
                store := { e.store with stat := { e.store.stat with namespace_count := e.store.stat.namespace_count + 1 } }
                ns_key_inc_offset := e.ns_key_inc_offset + 1
                ns_cache := ainsert e.ns_cache ns (Namespace.mk ns e.ns_key_inc_offset 1) }) := by
        simp [resolve_and_reference_ns, hc, hb, allocate_namespace]
      have hcache : alookup (ainsert e.ns_cache ns
          (Namespace.mk ns e.ns_key_inc_offset 1)) ns =
          some (Namespace.mk ns e.ns_key_inc_offset 1) :=
        alookup_ainsert_self _ _ _
      have hpre' : ∀ m, ((rest.take m).count false) ≤
          1 + (rest.take m).count true := by
        intro m
        have := hpre (m + 1)
        simp [List.take_succ_cons, List.count_cons] at this
        omega
      rcases applyNsOps_cached ns rest
          { e with
              store := { e.store with stat := { e.store.stat with namespace_count := e.store.stat.namespace_count + 1 } }
              ns_key_inc_offset := e.ns_key_inc_offset + 1
              ns_cache := ainsert e.ns_cache ns (Namespace.mk ns e.ns_key_inc_offset 1) }
          (Namespace.mk ns e.ns_key_inc_offset 1)
          hcache (by simpa using hpre') with ⟨e₁, hrun, hlook, hkeys, hstore⟩
      have hzero : 1 + rest.count true - rest.count false = 0 := by
        have hb' := hbal
        simp [List.count_cons] at hb'
        omega
      rw [hzero] at hlook
      have hnd₁ : (e₁.ns_cache.map Prod.fst).Nodup := by
        rw [hkeys]
        simp only [ainsert_keys_of_none _ hc]
        rw [List.nodup_append]
        refine ⟨hnd, List.nodup_singleton ns, ?_⟩
        intro a ha hmem
        rw [List.mem_singleton] at hmem
        subst hmem
        exact (alookup_eq_none_iff _ _).mp hc ha
      refine ⟨e₁, ?_, ?_⟩
      · simp only [applyNsOps, hstep]
        exact hrun
      · simp only [finish]
        rw [commit_ns_cache_lookup_mem _ _ _ _ _ hnd₁ hlook]
        simp

/-- An empty backend used by concrete witness states. -/
def emptyBackend : Backend :=
  { triples := [], namespaces := [], namespace_key_increment := 0, store := { stat := { triple_count := 0, namespace_count := 0, byte_size := 0 }, limits := exampleLimits } }

/-- Witness for C6: a fresh namespace referenced once and released once on a
concrete engine is gone from the persisted namespace table after the
commit. -/
theorem namespace_refcount_conserved_witness :
    ∃ e₁, applyNsOps [true, false] "n:".data (StoreEngine.new emptyBackend) = .ok e₁ ∧
      alookup (finish e₁).2.storage.namespaces "n:".data = none := by
  refine namespace_refcount_conserved [true, false] "n:".data _ rfl rfl
    (by simp [StoreEngine.new]) (by decide) ?_
  intro m
  match m with
  | 0 => decide
  | 1 => decide
  | m + 2 =>
    rw [List.take_of_length_le (by simp)]
    decide

/-! ## Frame lemmas: what the conversion helpers leave untouched -/

theorem resolve_and_reference_ns_storage (ns_str : Str) (e : StoreEngine) :
    (resolve_and_reference_ns ns_str e).2.storage = e.storage := by
  unfold resolve_and_reference_ns allocate_namespace
  split
  · rfl
  · split
    · rfl
    · rfl

theorem resolve_and_free_ns_storage (ns_str : Str) (e : StoreEngine) :
    (resolve_and_free_ns ns_str e).2.storage = e.storage := by
  unfold resolve_and_free_ns
  split
  · rfl
  · split
    · rfl
    · rfl

theorem resolve_and_free_ns_store (ns_str : Str) (e : StoreEngine) :
    (resolve_and_free_ns ns_str e).2.store = e.store := by
  unfold resolve_and_free_ns
  split
  · rfl
  · split
    · rfl
    · rfl

/-- A projection preserved by the resolver is preserved by `rio_to_node`. -/
theorem rio_to_node_frame {α : Type} (res : NsResolver) (f : StoreEngine → α)
    (hres : ∀ ns e, f (res ns e).2 = f e) (node : RioNamedNode)
    (e : StoreEngine) : f (rio_to_node res node e).2 = f e := by
  cases hx : explode_iri node.iri with
  | error msg => simp [rio_to_node, hx]
  | ok p =>
    obtain ⟨ns, v⟩ := p
    have h := hres ns e
    rcases hr : res ns e with ⟨r, e₁⟩
    rw [hr] at h
    cases r with
    | error msg =>
      simp only [rio_to_node, hx, hr]
      simpa using h
    | ok key =>
      simp only [rio_to_node, hx, hr]
      simpa using h

theorem rio_to_subject_frame {α : Type} (res : NsResolver) (f : StoreEngine → α)
    (hres : ∀ ns e, f (res ns e).2 = f e) (s : RioSubject) (e : StoreEngine) :
    f (rio_to_subject res s e).2 = f e := by
  cases s with
  | NamedNode node =>
    have h := rio_to_node_frame res f hres node e
    simp only [rio_to_subject]
    rcases hn : rio_to_node res node e with ⟨r, e₁⟩
    rw [hn] at h
    cases r with
    | error msg => exact h
    | ok n => exact h
  | BlankNode id => rfl
  | Triple t => rfl

theorem rio_to_literal_frame {α : Type} (res : NsResolver) (f : StoreEngine → α)
    (hres : ∀ ns e, f (res ns e).2 = f e) (lit : RioLiteral) (e : StoreEngine) :
    f (rio_to_literal res lit e).2 = f e := by
  cases lit with
  | Simple v => rfl
  | LanguageTaggedString v lg => rfl
  | Typed v dt =>
    have h := rio_to_node_frame res f hres dt e
    simp only [rio_to_literal]
    rcases hn : rio_to_node res dt e with ⟨r, e₁⟩
    rw [hn] at h
    cases r with
    | error msg => exact h
    | ok n => exact h

theorem rio_to_object_frame {α : Type} (res : NsResolver) (f : StoreEngine → α)
    (hres : ∀ ns e, f (res ns e).2 = f e) (o : RioTerm) (e : StoreEngine) :
    f (rio_to_object res o e).2 = f e := by
  cases o with
  | NamedNode node =>
    have h := rio_to_node_frame res f hres node e
    simp only [rio_to_object]
    rcases hn : rio_to_node res node e with ⟨r, e₁⟩
    rw [hn] at h
    cases r with
    | error msg => exact h
    | ok n => exact h
  | BlankNode id => rfl
  | Literal lit =>
    have h := rio_to_literal_frame res f hres lit e
    simp only [rio_to_object]
    rcases hn : rio_to_literal res lit e with ⟨r, e₁⟩
    rw [hn] at h
    cases r with
    | error msg => exact h
    | ok l => exact h
  | Triple t => rfl

theorem rio_to_triple_frame {α : Type} (res : NsResolver) (f : StoreEngine → α)
    (hres : ∀ ns e, f (res ns e).2 = f e) (t : RioTriple) (e : StoreEngine) :
    f (rio_to_triple res t e).2 = f e := by
  have hs := rio_to_subject_frame res f hres t.subject e
  rcases h₁ : rio_to_subject res t.subject e with ⟨r₁, e₁⟩
  rw [h₁] at hs
  cases r₁ with
  | error msg =>
    simp only [rio_to_triple, h₁]
    simpa using hs
  | ok s =>
    have hp := rio_to_node_frame res f hres t.predicate e₁
    rcases h₂ : rio_to_node res t.predicate e₁ with ⟨r₂, e₂⟩
    rw [h₂] at hp
    cases r₂ with
    | error msg =>
      simp only [rio_to_triple, h₁, h₂]
      simpa using hp.trans hs
    | ok p =>
      have ho := rio_to_object_frame res f hres t.object e₂
      rcases h₃ : rio_to_object res t.object e₂ with ⟨r₃, e₃⟩
      rw [h₃] at ho
      cases r₃ with
      | error msg =>
        simp only [rio_to_triple, h₁, h₂, h₃]
        simpa using (ho.trans hp).trans hs
      | ok o =>
        simp only [rio_to_triple, h₁, h₂, h₃]
        simpa using (ho.trans hp).trans hs

/-! ## Claim C4: the composite storage key -/

/-- C4: a triple persisted by a successful `store_triple` is saved under,
and a triple removed by a successful `delete_triple` is removed under, the
composite key (contentHash(object), predicate key, subject key), in that
order; the rest of the backend's triple table is taken as it was. -/
theorem triple_key_placement (t : RioTriple) (e : StoreEngine) :
    (∀ e', store_triple t e = (.ok (), e') →
      ∃ tr e₁, rio_to_triple resolve_and_reference_ns t
          (bump_byte_size (triple_size t) (bump_triple_count e)) = (.ok tr, e₁) ∧
        e₁.storage = e.storage ∧
        e'.storage.triples = ainsert e.storage.triples
          (tr.object.as_hash, tr.predicate.key, tr.subject.key) tr) ∧
    (∀ e', delete_triple t e = (.ok (), e') →
      ∃ tr e₁, rio_to_triple resolve_and_free_ns t e = (.ok tr, e₁) ∧
        e₁.storage = e.storage ∧
        e'.storage.triples = aremove e.storage.triples
          (tr.object.as_hash, tr.predicate.key, tr.subject.key)) := by
  constructor
  · intro e' h
    simp only [store_triple] at h
    split at h
    · simp at h
    · split at h
      · simp at h
      · split at h
        · simp at h
        · split at h
          · simp at h
          · split at h
            · simp at h
            · have hfr := rio_to_triple_frame resolve_and_reference_ns
                (fun x => x.storage) resolve_and_reference_ns_storage t
                (bump_byte_size (triple_size t) (bump_triple_count e))
              rcases hconv : rio_to_triple resolve_and_reference_ns t
                  (bump_byte_size (triple_size t) (bump_triple_count e)) with ⟨r, e₃⟩
              rw [show rio_to_triple resolve_and_reference_ns t
                  (bump_byte_size (triple_size t) (bump_triple_count e)) =
                  (r, e₃) from hconv] at h hfr
              cases r with
              | error msg => simp at h
              | ok tr =>
                refine ⟨tr, e₃, rfl, hfr, ?_⟩
                injection h with h1 h2
                subst h2
                show ainsert e₃.storage.triples
                    (tr.object.as_hash, tr.predicate.key, tr.subject.key) tr =
                  ainsert e.storage.triples
                    (tr.object.as_hash, tr.predicate.key, tr.subject.key) tr
                rw [show e₃.storage = e.storage from hfr]
  · intro e' h
    simp only [delete_triple] at h
    have hfr := rio_to_triple_frame resolve_and_free_ns
      (fun x => x.storage) resolve_and_free_ns_storage t e
    rcases hconv : rio_to_triple resolve_and_free_ns t e with ⟨r, e₁⟩
    rw [show rio_to_triple resolve_and_free_ns t e = (r, e₁) from hconv] at h hfr
    cases r with
    | error msg => simp at h
    | ok tr =>
      refine ⟨tr, e₁, rfl, hfr, ?_⟩
      injection h with h1 h2
      subst h2
      show aremove e₁.storage.triples
          (tr.object.as_hash, tr.predicate.key, tr.subject.key) =
        aremove e.storage.triples
          (tr.object.as_hash, tr.predicate.key, tr.subject.key)
      rw [show e₁.storage = e.storage from hfr]

/-- Witness for C4: storing a concrete triple in a fresh engine places it
under (contentHash(object), predicate key, subject key), and deleting it
removes that key. -/
theorem triple_key_placement_witness :
    (store_triple
        (.mk (.BlankNode "s".data) ⟨"p:x".data⟩ (.Literal (.Simple "v".data)))
        (StoreEngine.new emptyBackend)).1 = .ok () ∧
    alookup (store_triple
        (.mk (.BlankNode "s".data) ⟨"p:x".data⟩ (.Literal (.Simple "v".data)))
        (StoreEngine.new emptyBackend)).2.storage.triples
      ("sv".data, (0, "x".data), Sum.inr "s".data) =
      some { subject := .Blank "s".data, predicate := { ns := 0, value := "x".data }, object := .Literal (.Simple "v".data) } ∧
    alookup (delete_triple
        (.mk (.BlankNode "s".data) ⟨"p:x".data⟩ (.Literal (.Simple "v".data)))
        (store_triple
          (.mk (.BlankNode "s".data) ⟨"p:x".data⟩ (.Literal (.Simple "v".data)))
          (StoreEngine.new emptyBackend)).2).2.storage.triples
      ("sv".data, (0, "x".data), Sum.inr "s".data) = none := by
  refine ⟨rfl, ?_, ?_⟩
  · rfl
  · rfl

/-! ## Claim C7: a failing triple aborts the batch before the commit step -/

theorem alookup_ainsert_isSome {κ α : Type} [DecidableEq κ]
    (l : List (κ × α)) (k k' : κ) (v : α) (h : (alookup l k).isSome) :
    (alookup (ainsert l k' v) k).isSome := by
  by_cases hk : k' = k
  · subst hk
    rw [alookup_ainsert_self]
    rfl
  · rw [alookup_ainsert_ne _ _ _ _ hk]
    exact h

/-- `store_triple` never writes the namespace table, the allocator offset or
the statistics record to the backend — they are held in memory until
`finish` — and only ever adds entries to the backend triple table. -/
theorem store_triple_backend_frame (t : RioTriple) (e : StoreEngine) :
    (store_triple t e).2.storage.namespaces = e.storage.namespaces ∧
    (store_triple t e).2.storage.namespace_key_increment =
      e.storage.namespace_key_increment ∧
    (store_triple t e).2.storage.store = e.storage.store ∧
    ∀ k, (alookup e.storage.triples k).isSome →
      (alookup (store_triple t e).2.storage.triples k).isSome := by
  have hfr := rio_to_triple_frame resolve_and_reference_ns
    (fun x => x.storage) resolve_and_reference_ns_storage t
    (bump_byte_size (triple_size t) (bump_triple_count e))
  simp only [store_triple]
  split
  · exact ⟨rfl, rfl, rfl, fun k h => h⟩
  · split
    · exact ⟨rfl, rfl, rfl, fun k h => h⟩
    · split
      · exact ⟨rfl, rfl, rfl, fun k h => h⟩
      · split
        · exact ⟨rfl, rfl, rfl, fun k h => h⟩
        · split
          · exact ⟨rfl, rfl, rfl, fun k h => h⟩
          · rcases hconv : rio_to_triple resolve_and_reference_ns t
                (bump_byte_size (triple_size t) (bump_triple_count e)) with ⟨r, e₃⟩
            rw [hconv] at hfr
            have hs : e₃.storage = e.storage := hfr
            cases r with
            | error msg =>
              refine ⟨?_, ?_, ?_, fun k h => ?_⟩
              · exact congrArg (fun b => b.namespaces) hs
              · exact congrArg (fun b => b.namespace_key_increment) hs
              · exact congrArg (fun b => b.store) hs
              · show (alookup e₃.storage.triples k).isSome
                rw [hs]
                exact h
            | ok tr =>
              refine ⟨?_, ?_, ?_, fun k h => ?_⟩
              · exact congrArg (fun b => b.namespaces) hs
              · exact congrArg (fun b => b.namespace_key_increment) hs
              · exact congrArg (fun b => b.store) hs
              · show (alookup (ainsert e₃.storage.triples
                  (tr.object.as_hash, tr.predicate.key, tr.subject.key) tr) k).isSome
                rw [hs]
                exact alookup_ainsert_isSome _ _ _ _ h

/-- An aborted `read_all`/`store_triple` loop leaves the backend's commit
state (namespace table, allocator offset, statistics record) exactly as it
was at batch start, and the triple table retains every key it had. -/
theorem read_all_store_frame (items : List (Except ContractError RioTriple)) :
    ∀ (e : StoreEngine) (err : ContractError) (e₁ : StoreEngine),
    read_all_store items e = (.error err, e₁) →
      e₁.storage.namespaces = e.storage.namespaces ∧
      e₁.storage.namespace_key_increment = e.storage.namespace_key_increment ∧
      e₁.storage.store = e.storage.store ∧
      ∀ k, (alookup e.storage.triples k).isSome →
        (alookup e₁.storage.triples k).isSome := by
  induction items with
  | nil =>
    intro e err e₁ h
    simp [read_all_store] at h
  | cons item rest ih =>
    intro e err e₁ h
    cases item with
    | error err₀ =>
      simp only [read_all_store] at h
      injection h with h1 h2
      subst h2
      exact ⟨rfl, rfl, rfl, fun k hk => hk⟩
    | ok t =>
      simp only [read_all_store] at h
      have hfr := store_triple_backend_frame t e
      rcases hst : store_triple t e with ⟨r, e₂⟩
      rw [hst] at h hfr
      cases r with
      | error err₀ =>
        injection h with h1 h2
        subst h2
        exact ⟨hfr.1, hfr.2.1, hfr.2.2.1, hfr.2.2.2⟩
      | ok u =>
        have hrec := ih e₂ err e₁ h
        exact ⟨hrec.1.trans hfr.1, hrec.2.1.trans hfr.2.1,
          hrec.2.2.1.trans hfr.2.2.1,
          fun k hk => hrec.2.2.2 k (hfr.2.2.2 k hk)⟩

/-- C7: if any triple of a `store_all` batch fails (a parse error or a
`store_triple` failure), the whole call returns that error with the loop's
final state and never runs the commit step: the backend's namespace table,
allocator offset and statistics record are exactly as at batch start, while
every triple key already in the backend — including those written by the
successful prefix of the batch — is still present. -/
theorem store_all_abort_semantics (items : List (Except ContractError RioTriple))
    (e : StoreEngine) (err : ContractError) (e₁ : StoreEngine)
    (h : read_all_store items e = (.error err, e₁)) :
    store_all items e = (.error err, e₁) ∧
    e₁.storage.namespaces = e.storage.namespaces ∧
    e₁.storage.namespace_key_increment = e.storage.namespace_key_increment ∧
    e₁.storage.store = e.storage.store ∧
    ∀ k, (alookup e.storage.triples k).isSome →
      (alookup e₁.storage.triples k).isSome := by
  have hfr := read_all_store_frame items e err e₁ h
  refine ⟨?_, hfr.1, hfr.2.1, hfr.2.2.1, hfr.2.2.2⟩
  simp [store_all, h]

/-- A quota configuration admitting a single triple. -/
def oneTripleLimits : StoreLimits :=
  { max_triple_count := 1, max_byte_size := 100, max_triple_byte_size := 50, max_insert_data_byte_size := 100, max_insert_data_triple_count := 10 }

/-- A fresh backend admitting a single triple. -/
def oneTripleBackend : Backend :=
  { triples := [], namespaces := [], namespace_key_increment := 0, store := { stat := { triple_count := 0, namespace_count := 0, byte_size := 0 }, limits := oneTripleLimits } }

/-- A sample parsed triple: blank subject, one-namespace predicate, simple
literal object. -/
def sampleTriple : RioTriple :=
  .mk (.BlankNode "s".data) ⟨"p:x".data⟩ (.Literal (.Simple "v".data))

/-- A two-triple batch whose second triple violates the triple-count bound
of `oneTripleBackend`. -/
def sampleBatch : List (Except ContractError RioTriple) :=
  [.ok sampleTriple, .ok sampleTriple]

/-- Witness for C7: on a concrete engine limited to one triple, a two-triple
batch fails with the triple-count error; the commit state is untouched and
the first triple's write survives. -/
theorem store_all_abort_semantics_witness :
    store_all sampleBatch (StoreEngine.new oneTripleBackend) =
      (.error (.Store (.TripleCount 1)),
        (read_all_store sampleBatch (StoreEngine.new oneTripleBackend)).2) ∧
    (read_all_store sampleBatch (StoreEngine.new oneTripleBackend)).2.storage.namespaces =
      (StoreEngine.new oneTripleBackend).storage.namespaces ∧
    (read_all_store sampleBatch (StoreEngine.new oneTripleBackend)).2.storage.namespace_key_increment =
      (StoreEngine.new oneTripleBackend).storage.namespace_key_increment ∧
    (read_all_store sampleBatch (StoreEngine.new oneTripleBackend)).2.storage.store =
      (StoreEngine.new oneTripleBackend).storage.store ∧
    ∀ k, (alookup (StoreEngine.new oneTripleBackend).storage.triples k).isSome →
      (alookup (read_all_store sampleBatch
        (StoreEngine.new oneTripleBackend)).2.storage.triples k).isSome :=
  store_all_abort_semantics sampleBatch (StoreEngine.new oneTripleBackend)
    (.Store (.TripleCount 1)) _ rfl

/-! ## Claim C8: deletes do not guard the statistics against underflow -/

/-- C8: `delete_triple` performs the statistics subtractions without any
guard and without surfacing a typed error: when the store's triple count is
already zero, a delete whose term conversion succeeds still returns `Ok`,
and the counters are simply decremented (the unchecked `Uint128`
subtraction, modelled as truncating `Nat` subtraction). -/
theorem delete_no_underflow_guard (t : RioTriple) (e : StoreEngine)
    (tr : Triple) (e₁ : StoreEngine)
    (hconv : rio_to_triple resolve_and_free_ns t e = (.ok tr, e₁))
    (hzero : e.store.stat.triple_count = 0) :
    ∃ e₂, delete_triple t e = (.ok (), e₂) ∧
      e₂.store.stat.triple_count = 0 ∧
      e₂.store.stat.byte_size = e.store.stat.byte_size - triple_size t := by
  have hfr := rio_to_triple_frame resolve_and_free_ns (fun x => x.store)
    resolve_and_free_ns_store t e
  rw [hconv] at hfr
  have hst : e₁.store = e.store := hfr
  refine ⟨(delete_triple t e).2, ?_, ?_, ?_⟩
  · simp [delete_triple, hconv]
  · simp [delete_triple, hconv, hst, hzero]
  · simp [delete_triple, hconv, hst]

/-- A backend whose namespace table already interns `p:` but whose triple
count is zero — the underflow scenario. -/
def zeroCountBackend : Backend :=
  { triples := [], namespaces := [("p:".data, Namespace.mk "p:".data 0 5)], namespace_key_increment := 1, store := { stat := { triple_count := 0, namespace_count := 1, byte_size := 0 }, limits := exampleLimits } }

/-- Witness for C8: deleting from a concrete zero-count store succeeds with
no typed error and leaves the truncated counters. -/
theorem delete_no_underflow_guard_witness :
    ∃ e₂, delete_triple sampleTriple (StoreEngine.new zeroCountBackend) =
        (.ok (), e₂) ∧
      e₂.store.stat.triple_count = 0 ∧
      e₂.store.stat.byte_size =
        (StoreEngine.new zeroCountBackend).store.stat.byte_size -
          triple_size sampleTriple :=
  delete_no_underflow_guard sampleTriple (StoreEngine.new zeroCountBackend)
    { subject := .Blank "s".data, predicate := { ns := 0, value := "x".data }, object := .Literal (.Simple "v".data) }
    (rio_to_triple resolve_and_free_ns sampleTriple
      (StoreEngine.new zeroCountBackend)).2 rfl rfl

end Cognitarium
